import Mathlib

/-!
Verification development for the xage-bot automation program.

The program (src/index.js and its lootbox-enabled variant) is embedded
shallowly: each JS function relevant to the claims is translated into a
Lean definition over explicit data.  Network responses, JSON parsing,
Math.random and the wall clock are modelled as explicit inputs (oracles),
since the JS runtime supplies them from the environment.  Stateful
while-loops are modelled as step functions on explicit state records,
iterated with fuel; sleeps are modelled by accumulating the requested
durations.
-/

namespace XageBot

/-! ## String utilities (models of JS string primitives) -/

/-- Whitespace test used to model JS String.prototype.trim
(ASCII whitespace; the full JS WhiteSpace set adds Unicode code points
that never occur in the strings this program manipulates). -/
def isWs (c : Char) : Bool := c.isWhitespace

/-- Model of JS String.prototype.trim: strip leading and trailing
whitespace. -/
def jsTrim (s : String) : String :=
  ⟨(s.data.dropWhile isWs).rdropWhile isWs⟩

/-- Substring containment on char lists; models an (unanchored) regex
literal-alternative match. -/
def containsSub (needle : List Char) : List Char → Bool
  | [] => needle.isEmpty
  | c :: rest => needle.isPrefixOf (c :: rest) || containsSub needle rest

/-- Model of the case-insensitive auth heuristic regex from
looksLikeAuthProblem in src/index.js:
test for unauth|unauthoriz|forbidden|expired|cookie|login|session,
case-insensitively, anywhere in the string. -/
def authProblemPattern (s : String) : Bool :=
  let l := s.toLower.data
  containsSub "unauth".data l || containsSub "unauthoriz".data l ||
  containsSub "forbidden".data l || containsSub "expired".data l ||
  containsSub "cookie".data l || containsSub "login".data l ||
  containsSub "session".data l

/-! ## Transport: parseRetryAfterMs, looksLikeAuthProblem, requestJson -/

/-- The retry-after header value, abstracted by how the JS primitives
classify it: absent (null header), the empty string (falsy), a string that
Number() parses to a finite number q, a string that Number() rejects but
Date.parse reads as the epoch-millisecond timestamp t, or a string
neither parses.  This encodes the outcomes of the environment-supplied
parsers that src/index.js parseRetryAfterMs consults, in the order it
consults them. -/
inductive RetryAfterValue
  | absent
  | emptyStr
  | numStr (q : ℚ)
  | dateStr (t : ℤ)
  | unparsable
deriving DecidableEq

/-- Model of parseRetryAfterMs (src/index.js lines 142-149).
now is the value of Date.now() at the call. -/
def parseRetryAfterMs (v : RetryAfterValue) (now : ℤ) : Option ℤ :=
  match v with
  | .absent => none
  | .emptyStr => none
  | .numStr q => some (max 1000 ⌊q * 1000⌋)
  | .dateStr t => some (max 1000 (t - now))
  | .unparsable => none

/-- The parts of a parsed JSON body that the transport classifier reads.
A field is none when absent (or not a string); some "" is the present but
falsy empty string. -/
structure JsonPayload where
  message : Option String
  error : Option String
deriving DecidableEq

/-- JS string truthiness: keep a present, nonempty string. -/
def truthyStr : Option String → Option String
  | some s => if s = "" then none else some s
  | none => none

/-- Model of the JS expression json && (json.message || json.error):
the first truthy of message then error, none when json is null or both
are falsy. -/
def payloadMsg (j : Option JsonPayload) : Option String :=
  match j with
  | some p =>
    match truthyStr p.message with
    | some m => some m
    | none => truthyStr p.error
  | none => none

/-- Model of looksLikeAuthProblem (src/index.js lines 150-157). -/
def looksLikeAuthProblem (resStatus : Nat) (json : Option JsonPayload)
    (text : String) : Bool :=
  if resStatus = 401 || resStatus = 403 then true
  else authProblemPattern ((payloadMsg json).getD text)

/-- WHATWG fetch Response.ok: status in 200..299. -/
def resOk (status : Nat) : Bool := 200 ≤ status && status ≤ 299

/-- Outcome of JSON.parse on the (nonempty) body text: an exception, or a
payload value. -/
inductive ParseResult
  | fail
  | val (j : JsonPayload)
deriving DecidableEq

/-- An HTTP response as requestJson observes it: status code, the
retry-after header, the body text, and what JSON.parse would do to the
nonempty body text. -/
structure HttpResponse where
  status : Nat
  retryAfter : RetryAfterValue
  text : String
  parse : ParseResult
deriving DecidableEq

/-- text.slice(0, 200). -/
def sliceSnippet (s : String) : String := ⟨s.data.take 200⟩

/-- The classified result of requestJson: the thrown rate-limit error
(code RATE_LIMIT, with its waitMs hint), the thrown auth error (code
AUTH), the thrown not-JSON error (no code), the thrown generic HTTP
error (no code), or the returned payload. -/
inductive ReqResult
  | rateLimited (waitMs : ℤ) (retryAfterRaw : RetryAfterValue)
  | authErr (status : Nat)
  | notJsonErr (status : Nat) (snippet : String)
  | httpErr (status : Nat) (msg : String)
  | okJson (payload : Option JsonPayload)
deriving DecidableEq

/-- Fallback wait used when the retry-after hint is absent
(RATE_LIMIT_FALLBACK_WAIT_MS). -/
def RATE_LIMIT_FALLBACK_WAIT_MS : ℤ := 8000

/-- Model of requestJson (src/index.js lines 158-194): classify a
response.  The 429 check precedes body parsing; a parse failure goes
through the auth heuristic with json null; a non-2xx parsed response
goes through the same heuristic with the payload. -/
def requestJson (r : HttpResponse) (now : ℤ) : ReqResult :=
  if r.status = 429 then
    .rateLimited ((parseRetryAfterMs r.retryAfter now).getD
      RATE_LIMIT_FALLBACK_WAIT_MS) r.retryAfter
  else
    let parsed : Option (Option JsonPayload) :=
      if r.text = "" then some none
      else
        match r.parse with
        | .fail => none
        | .val j => some (some j)
    match parsed with
    | none =>
      if looksLikeAuthProblem r.status none r.text then .authErr r.status
      else .notJsonErr r.status (sliceSnippet r.text)
    | some j =>
      if resOk r.status then .okJson j
      else if looksLikeAuthProblem r.status j r.text then .authErr r.status
      else .httpErr r.status ((payloadMsg j).getD (sliceSnippet r.text))

/-! ## Retry kernel (the while-loop in runTasksForAccount around
completeTask, identical in createOneTokenForAccount around
createTradeXToken when no stop has been requested) -/

/-- RATE_LIMIT_MAX_RETRY from the source. -/
def RATE_LIMIT_MAX_RETRY : Nat := 3

/-- AUTH_MAX_RETRY from the source. -/
def AUTH_MAX_RETRY : Nat := 3

/-- What one invocation of the wrapped remote operation does, as the
catch/return logic of the loop distinguishes it: a normal return
(carrying the success flag of the payload), a thrown AUTH error, a
thrown RATE_LIMIT error with its waitMs hint, or any other thrown
error. -/
inductive OpOutcome
  | okR (success : Bool)
  | authE
  | rateE (waitMs : ℤ)
  | failE
deriving DecidableEq

/-- State of the retry while-loop: the JS attempt counter, how many
times the operation has been invoked, how many credential refreshes
happened, total milliseconds spent sleeping inside the loop, and
whether the loop was left by break/return (as opposed to running out
of budget). -/
structure RetryState where
  attempt : Nat
  calls : Nat
  refreshes : Nat
  waitedMs : ℤ
  finished : Bool
deriving DecidableEq

/-- One iteration of the retry while-loop body.  script k is the
outcome of call number k; jitter k is the duration randInt(500, 1500)
drawn for the jitter sleep after call k.  In the AUTH arm the JS does
attempt++ at the top and attempt-- in the handler, so attempt is
unchanged; refreshCookieForAccount is modelled as succeeding (its own
bounded prompt loop is outside this claim).  In the RATE_LIMIT arm the
loop sleeps waitMs then the jitter, keeping the incremented attempt. -/
def retryStep (script : Nat → OpOutcome) (jitter : Nat → ℤ)
    (s : RetryState) : RetryState :=
  match script s.calls with
  | .okR _ =>
    { s with attempt := s.attempt + 1, calls := s.calls + 1, finished := true }
  | .authE =>
    { s with calls := s.calls + 1, refreshes := s.refreshes + 1 }
  | .rateE w =>
    { s with
      attempt := s.attempt + 1
      calls := s.calls + 1
      waitedMs := s.waitedMs + w + jitter s.calls }
  | .failE =>
    { s with attempt := s.attempt + 1, calls := s.calls + 1, finished := true }

/-- Run the retry while-loop: while attempt < maxAttempts and the loop
has not returned or broken, do one iteration.  fuel bounds the number
of iterations, needed because the AUTH arm does not decrease the
budget. -/
def runRetry (script : Nat → OpOutcome) (jitter : Nat → ℤ)
    (maxAttempts : Nat) : Nat → RetryState → RetryState
  | 0, s => s
  | fuel + 1, s =>
    if s.finished then s
    else if s.attempt < maxAttempts then
      runRetry script jitter maxAttempts fuel (retryStep script jitter s)
    else s

/-- The state at loop entry. -/
def retryStart : RetryState := ⟨0, 0, 0, 0, false⟩

/-! ## Interruptible delay: randInt and sleepRandom -/

/-- Model of randInt(min, max): Math.floor(r * (max - min + 1)) + min,
where r is the Math.random() draw in [0, 1). -/
def randInt (r : ℚ) (lo hi : ℤ) : ℤ := ⌊r * (hi - lo + 1)⌋ + lo

/-- The while-loop of sleepRandom: sleep in slices of at most 5000 ms,
checking the cancellation flag before each slice.  check t is the
value of state.stopRequested observed after t ms of this sleep have
elapsed.  Returns the total milliseconds actually slept. -/
def sliceLoop (check : Nat → Bool) (slept remaining : Nat) : Nat :=
  if remaining = 0 then slept
  else if check slept then slept
  else sliceLoop check (slept + min 5000 remaining) (remaining - min 5000 remaining)
termination_by remaining
decreasing_by omega

/-- Model of sleepRandom (src/index.js lines 47-64) after the duration
ms = randInt(minMs, maxMs) has been drawn: with no state supplied the
slice checks are vacuous and the full duration is slept; with a state
supplied the flag is checked once before the loop and then before
every slice.  Returns the total milliseconds slept. -/
def sleepRandom (state : Option (Nat → Bool)) (ms : Nat) : Nat :=
  match state with
  | none => sliceLoop (fun _ => false) 0 ms
  | some check => if check 0 then 0 else sliceLoop check 0 ms

/-! ## Log output of the error handlers (for the no-silent-swallowing
claim) -/

inductive LogLevel
  | info
  | okL
  | warn
  | err
deriving DecidableEq

structure LogLine where
  level : LogLevel
  msg : String
deriving DecidableEq

/-- The quoted label, as the template literals write it. -/
def quoted (label : String) : String := "\"" ++ label ++ "\""

/-- A thrown error as the catch handlers case on it: code AUTH, code
RATE_LIMIT (with waitMs and the raw retry-after header), or anything
else (with its message). -/
inductive ThrownErr
  | authT
  | rateT (waitMs : ℤ) (retryAfterRaw : Option String)
  | failT (msg : String)
deriving DecidableEq

/-- The log lines guaranteed to be produced by the catch handler of the
token-creation retry loop (createOneTokenForAccount, src/index.js lines
480-501), given the stopRequested flag at the moment of the catch.  In
the AUTH arm the line is the reason string that refreshCookieForAccount
passes to promptCookie, which logs it at warn level (the refresh flow
may log further lines; only the guaranteed first line is recorded). -/
def tokenCreateCatchLogs (label : String) (stopRequested : Bool)
    (attempt : Nat) (e : ThrownErr) : List LogLine :=
  if stopRequested then []
  else
    match e with
    | .authT =>
      [⟨.warn, quoted label ++ " cookie expired while creating a token."⟩]
    | .rateT w raw =>
      [⟨.warn, quoted label ++ " HTTP 429. Waiting " ++ toString w ++ "ms"
        ++ (match raw with
            | some ra => " (Retry-After=" ++ ra ++ ")"
            | none => "")
        ++ ", then retry (" ++ Nat.repr attempt ++ "/"
        ++ Nat.repr RATE_LIMIT_MAX_RETRY ++ ")"⟩]
    | .failT m =>
      [⟨.warn, quoted label ++ " token create failed: " ++ m⟩]

/-- The log lines produced by the catch handler around openLootbox in
runLootboxForAccount (lootbox variant, lines 636-648): the AUTH arm
logs the refresh reason at warn level, the RATE_LIMIT arm sleeps and
continues without logging, any other error is logged at err level
(without the account label). -/
def lootboxOpenCatchLogs (label : String) (e : ThrownErr) : List LogLine :=
  match e with
  | .authT => [⟨.warn, quoted label ++ " cookie expired"⟩]
  | .rateT _ _ => []
  | .failT m => [⟨.err, "Error opening lootbox: " ++ m⟩]

/-! ## The identity-refresh loop after each task
(the while(true) around getMe in runTasksForAccount, lines 395-410) -/

/-- What one getMe call does, as the loop distinguishes it: a normal
return (with the success flag and whether a user object is present), a
thrown AUTH error, a thrown RATE_LIMIT error with its hint, or any
other thrown error. -/
inductive MeOutcome
  | okM (success : Bool) (hasUser : Bool)
  | authM
  | rateM (waitMs : ℤ)
  | failM
deriving DecidableEq

/-- State of the identity-refresh while(true) loop. -/
structure MeLoopState where
  calls : Nat
  refreshes : Nat
  waitedMs : ℤ
  finished : Bool
deriving DecidableEq

/-- One iteration of the identity-refresh loop body.  Only the AUTH arm
retries (after a modelled-as-successful credential refresh); a normal
return breaks, and every other thrown error (RATE_LIMIT included) is
logged and breaks — the catch has no RATE_LIMIT arm, so no wait is
performed and no retry happens. -/
def meStep (script : Nat → MeOutcome) (s : MeLoopState) : MeLoopState :=
  match script s.calls with
  | .okM _ _ => { s with calls := s.calls + 1, finished := true }
  | .authM => { s with calls := s.calls + 1, refreshes := s.refreshes + 1 }
  | .rateM _ => { s with calls := s.calls + 1, finished := true }
  | .failM => { s with calls := s.calls + 1, finished := true }

/-- Run the identity-refresh while(true) loop, fuel-bounded because the
AUTH arm retries without bound. -/
def runMeLoop (script : Nat → MeOutcome) : Nat → MeLoopState → MeLoopState
  | 0, s => s
  | fuel + 1, s => if s.finished then s else runMeLoop script fuel (meStep script s)

/-- The state at loop entry. -/
def meLoopStart : MeLoopState := ⟨0, 0, 0, false⟩

/-- The per-task body of the task runner: each pending task gets its own
completion retry loop and its own identity-refresh loop; the results of
one task feed nothing into the iteration over the remaining tasks.
completeScript t / meScript t are the outcome scripts for task t. -/
def processPending (completeScript : Nat → Nat → OpOutcome)
    (meScript : Nat → Nat → MeOutcome) (jitter : Nat → ℤ) (fuel : Nat) :
    List Nat → List (RetryState × MeLoopState)
  | [] => []
  | t :: rest =>
    (runRetry (completeScript t) jitter RATE_LIMIT_MAX_RETRY fuel retryStart,
      runMeLoop (meScript t) fuel meLoopStart)
      :: processPending completeScript meScript jitter fuel rest

/-! ## The lootbox loop (runLootboxForAccount, lootbox variant lines
598-653) -/

/-- What one getTradeXBalance call does in the lootbox loop: a normal
return carrying the parsed balance, a thrown AUTH error, or any other
thrown error. -/
inductive BalOutcome
  | okB (balance : ℤ)
  | authB
  | failB
deriving DecidableEq

/-- What one openLootbox call does: a normal return (with the success
flag and whether a prize object is present), a thrown AUTH error, a
thrown RATE_LIMIT error with its hint, or any other thrown error. -/
inductive OpenOutcome
  | retO (success : Bool) (hasPrize : Bool)
  | authO
  | rateO (waitMs : ℤ)
  | failO
deriving DecidableEq

/-- Whether the open call returned without throwing. -/
def OpenOutcome.isRet : OpenOutcome → Bool
  | .retO _ _ => true
  | _ => false

/-- State of the lootbox while(true) loop. -/
structure LootboxState where
  balCalls : Nat
  openCalls : Nat
  opened : Nat
  refreshes : Nat
  finished : Bool
deriving DecidableEq

/-- One iteration of the lootbox while(true) loop: fetch the balance
(AUTH retries after refresh, other errors break), stop when the balance
is below the price, otherwise open once.  A non-throwing open
increments opened before the success field is inspected; AUTH refreshes
and continues; RATE_LIMIT sleeps and continues with no attempt counter;
any other error breaks.  After a non-throwing open, ONCE mode breaks
and REPEAT mode delays and loops. -/
def lootboxStep (price : ℤ) (isRepeat : Bool) (balScript : Nat → BalOutcome)
    (openScript : Nat → OpenOutcome) (s : LootboxState) : LootboxState :=
  match balScript s.balCalls with
  | .authB => { s with balCalls := s.balCalls + 1, refreshes := s.refreshes + 1 }
  | .failB => { s with balCalls := s.balCalls + 1, finished := true }
  | .okB bal =>
    let s1 := { s with balCalls := s.balCalls + 1 }
    if bal < price then { s1 with finished := true }
    else
      match openScript s1.openCalls with
      | .retO _ _ =>
        let s2 := { s1 with
          openCalls := s1.openCalls + 1
          opened := s1.opened + 1 }
        if isRepeat then s2 else { s2 with finished := true }
      | .authO =>
        { s1 with
          openCalls := s1.openCalls + 1
          refreshes := s1.refreshes + 1 }
      | .rateO _ => { s1 with openCalls := s1.openCalls + 1 }
      | .failO =>
        { s1 with
          openCalls := s1.openCalls + 1
          finished := true }

/-- Run the lootbox while(true) loop, fuel-bounded (the loop itself has
no bound). -/
def runLootbox (price : ℤ) (isRepeat : Bool) (balScript : Nat → BalOutcome)
    (openScript : Nat → OpenOutcome) : Nat → LootboxState → LootboxState
  | 0, s => s
  | fuel + 1, s =>
    if s.finished then s
    else runLootbox price isRepeat balScript openScript fuel
      (lootboxStep price isRepeat balScript openScript s)

/-- The state at loop entry (opened = 0). -/
def lootboxStart : LootboxState := ⟨0, 0, 0, 0, false⟩

/-- How many of the first n open calls returned without throwing. -/
def countReturned (openScript : Nat → OpenOutcome) (n : Nat) : Nat :=
  ((List.range n).filter fun k => (openScript k).isRet).length

/-! ## Config normalization (normalizeConfig, src/index.js lines 79-93) -/

/-- A JS object field as the typeof checks see it: absent (or
undefined/null), present but not a string, or a string. -/
inductive JsField
  | missing
  | notStr
  | strVal (s : String)
deriving DecidableEq

/-- An element of the raw accounts array: a falsy or non-object value
(dropped by the filter), or an object with its label and cookie
fields. -/
inductive RawEntry
  | notObj
  | obj (label : JsField) (cookie : JsField)
deriving DecidableEq

/-- The raw config value as loaded from disk: whether it is an object
at all, its top-level legacy cookie field, and its accounts field
(none when absent or not an array). -/
structure RawConfig where
  isObj : Bool
  cookie : JsField
  accounts : Option (List RawEntry)
deriving DecidableEq

/-- A normalized account record. -/
structure Account where
  label : String
  cookie : String
deriving DecidableEq

/-- A normalized config: the accounts list, plus whatever is left of
the top-level cookie field (missing after the legacy migration deletes
it). -/
structure NormConfig where
  accounts : List Account
  cookieField : JsField
deriving DecidableEq

/-- The default label for the account at zero-based index n - 1: the
template literal acc followed by the one-based position. -/
def defaultLabel (n : Nat) : String := "acc" ++ Nat.repr n

/-- The filter predicate a && typeof a === "object". -/
def RawEntry.isObjEntry : RawEntry → Bool
  | .notObj => false
  | .obj _ _ => true

/-- The map body: label from a trimmed nonempty string label field,
else the default accN label; cookie from a trimmed string cookie field,
else the empty string.  (The notObj arm is unreachable: such entries
are removed by the filter before the map.) -/
def normEntry (idx : Nat) : RawEntry → Account
  | .obj l c =>
    { label :=
        match l with
        | .strVal s => if jsTrim s ≠ "" then jsTrim s else defaultLabel (idx + 1)
        | _ => defaultLabel (idx + 1)
      cookie :=
        match c with
        | .strVal s => jsTrim s
        | _ => "" }
  | .notObj => { label := defaultLabel (idx + 1), cookie := "" }

/-- The indexed map (a, idx) => ... over the filtered accounts array. -/
def normAccountsGo (idx : Nat) : List RawEntry → List Account
  | [] => []
  | e :: rest => normEntry idx e :: normAccountsGo (idx + 1) rest

/-- Model of normalizeConfig: coerce a non-object config to an empty
object, coerce a non-array accounts field to an empty array, migrate a
non-blank legacy top-level string cookie into a one-element accounts
array (deleting the cookie field) when the accounts array is empty,
then filter out non-object entries and normalize each entry. -/
def normalizeConfig (cfg : RawConfig) : NormConfig :=
  let cookie0 : JsField := if cfg.isObj then cfg.cookie else .missing
  let accs0 : List RawEntry := if cfg.isObj then cfg.accounts.getD [] else []
  let migrated : Option String :=
    match cookie0 with
    | .strVal s => if jsTrim s ≠ "" ∧ accs0 = [] then some (jsTrim s) else none
    | _ => none
  let accs1 : List RawEntry :=
    match migrated with
    | some c => accs0 ++ [RawEntry.obj (.strVal "acc1") (.strVal c)]
    | none => accs0
  { accounts := normAccountsGo 0 (accs1.filter RawEntry.isObjEntry)
    cookieField :=
      match migrated with
      | some _ => .missing
      | none => cookie0 }

/-! ## Helper lemmas: jsTrim -/

theorem dropWhile_head_false (p : Char → Bool) :
    ∀ (l : List Char) (c : Char) (t : List Char),
      l.dropWhile p = c :: t → p c = false := by
  intro l
  induction l with
  | nil => intro c t h; exact absurd h (by simp)
  | cons a l ih =>
    intro c t h
    rw [List.dropWhile_cons] at h
    split at h
    · exact ih c t h
    · rename_i hp
      obtain ⟨h1, _⟩ := List.cons.injEq a l c t ▸ h
      rw [← h1]
      exact Bool.not_eq_true _ ▸ hp

theorem jsTrim_head_aux (l : List Char) :
    List.dropWhile isWs ((l.dropWhile isWs).rdropWhile isWs)
      = (l.dropWhile isWs).rdropWhile isWs := by
  rcases hr : (l.dropWhile isWs).rdropWhile isWs with _ | ⟨c, t⟩
  · rfl
  · have hpre : c :: t <+: l.dropWhile isWs := hr ▸ List.rdropWhile_prefix isWs _
    obtain ⟨r, hrr⟩ := hpre
    have hm : l.dropWhile isWs = c :: (t ++ r) := by rw [← hrr]; simp
    have hc : isWs c = false := dropWhile_head_false isWs l c (t ++ r) hm
    simp [List.dropWhile_cons, hc]

theorem jsTrim_idem (s : String) : jsTrim (jsTrim s) = jsTrim s := by
  unfold jsTrim
  refine congrArg String.mk ?_
  show (((s.data.dropWhile isWs).rdropWhile isWs).dropWhile isWs).rdropWhile isWs
    = (s.data.dropWhile isWs).rdropWhile isWs
  rw [jsTrim_head_aux, List.rdropWhile_idempotent]

theorem jsTrim_eq_self (s : String) (h : ∀ c ∈ s.data, isWs c = false) :
    jsTrim s = s := by
  unfold jsTrim
  have h1 : s.data.dropWhile isWs = s.data := by
    rw [List.dropWhile_eq_self_iff]
    intro hl
    have hm0 : s.data.get ⟨0, hl⟩ ∈ s.data := List.get_mem s.data 0 hl
    simp only [List.get_eq_getElem] at hm0
    simp [h _ hm0]
  have h2 : s.data.rdropWhile isWs = s.data := by
    rw [List.rdropWhile_eq_self_iff]
    intro hl
    have := h _ (List.getLast_mem hl)
    simp [this]
  rw [h1, h2]

/-! ## Helper lemmas: decimal digits of Nat.repr are not whitespace -/

theorem digitChar_isWs (m : Nat) : isWs (Nat.digitChar m) = false := by
  by_cases h : m < 16
  · interval_cases m <;> decide
  · unfold Nat.digitChar
    repeat rw [if_neg (by omega)]
    decide

theorem toDigitsCore_isWs : ∀ (fuel n : Nat) (ds : List Char),
    (∀ c ∈ ds, isWs c = false) →
    ∀ c ∈ Nat.toDigitsCore 10 fuel n ds, isWs c = false := by
  intro fuel
  induction fuel with
  | zero => intro n ds h c hc; exact h c hc
  | succ f ih =>
    intro n ds h c hc
    simp only [Nat.toDigitsCore] at hc
    have hcons : ∀ x ∈ Nat.digitChar (n % 10) :: ds, isWs x = false := by
      intro x hx
      rcases List.mem_cons.mp hx with hx | hx
      · rw [hx]; exact digitChar_isWs _
      · exact h x hx
    split at hc
    · exact hcons c hc
    · exact ih (n / 10) _ hcons c hc

theorem repr_isWs (n : Nat) : ∀ c ∈ (Nat.repr n).data, isWs c = false := by
  intro c hc
  have hd : (Nat.repr n).data = Nat.toDigitsCore 10 (n + 1) n [] := rfl
  rw [hd] at hc
  exact toDigitsCore_isWs (n + 1) n [] (by simp) c hc

theorem defaultLabel_isWs (n : Nat) :
    ∀ c ∈ (defaultLabel n).data, isWs c = false := by
  intro c hc
  unfold defaultLabel at hc
  rw [String.data_append] at hc
  rcases List.mem_append.mp hc with h | h
  · have hacc : ("acc" : String).data = ['a', 'c', 'c'] := rfl
    rw [hacc] at h
    rcases h with _ | ⟨_, _ | ⟨_, _ | ⟨_, h⟩⟩⟩ <;> first | decide | cases h
  · exact repr_isWs n c h

theorem jsTrim_defaultLabel (n : Nat) : jsTrim (defaultLabel n) = defaultLabel n :=
  jsTrim_eq_self _ (defaultLabel_isWs n)

theorem defaultLabel_ne_empty (n : Nat) : defaultLabel n ≠ "" := by
  intro h
  have hdata : (defaultLabel n).data = [] := by rw [h]
  unfold defaultLabel at hdata
  rw [String.data_append] at hdata
  rcases List.append_eq_nil.mp hdata with ⟨h1, _⟩
  exact absurd h1 (by decide)

/-! ## Helper lemmas: containsSub -/

theorem containsSub_nil_needle : ∀ l : List Char, containsSub [] l = true
  | [] => rfl
  | _ :: _ => by simp [containsSub, List.isPrefixOf]

theorem containsSub_self_append (n r : List Char) :
    containsSub n (n ++ r) = true := by
  have hp : n.isPrefixOf (n ++ r) = true := by
    rw [List.isPrefixOf_iff_prefix]
    exact ⟨r, rfl⟩
  cases n with
  | nil => exact containsSub_nil_needle r
  | cons c t =>
    have hstep : containsSub (c :: t) ((c :: t) ++ r)
        = ((c :: t).isPrefixOf ((c :: t) ++ r) || containsSub (c :: t) (t ++ r)) := rfl
    rw [hstep, hp, Bool.true_or]

theorem containsSub_cons (n : List Char) (c : Char) (l : List Char)
    (h : containsSub n l = true) : containsSub n (c :: l) = true := by
  cases n with
  | nil => simp [containsSub, List.isPrefixOf]
  | cons d t =>
    have hstep : containsSub (d :: t) (c :: l)
        = ((d :: t).isPrefixOf (c :: l) || containsSub (d :: t) l) := rfl
    rw [hstep, h, Bool.or_true]

theorem containsSub_quoted (label rest : String) :
    containsSub label.data (quoted label ++ rest).data = true := by
  unfold quoted
  have hd : ((("\"" ++ label ++ "\"") ++ rest) : String).data
      = '\"' :: (label.data ++ ('\"' :: rest.data)) := by
    simp [String.data_append]
  rw [hd]
  exact containsSub_cons _ _ _ (containsSub_self_append _ _)

/-! ## Helper lemmas: the slice loop and randInt -/

theorem sliceLoop_le (c : Nat → Bool) :
    ∀ remaining slept, sliceLoop c slept remaining ≤ slept + remaining := by
  intro remaining
  induction remaining using Nat.strong_induction_on with
  | _ n ih =>
    intro slept
    rw [sliceLoop]
    split
    · omega
    · split
      · omega
      · have hrec := ih (n - min 5000 n) (by omega) (slept + min 5000 n)
        omega

theorem sliceLoop_noStop :
    ∀ remaining slept, sliceLoop (fun _ => false) slept remaining = slept + remaining := by
  intro remaining
  induction remaining using Nat.strong_induction_on with
  | _ n ih =>
    intro slept
    rw [sliceLoop]
    split
    · omega
    · split
      · rename_i hcheck
        exact absurd hcheck (by simp)
      · have hrec := ih (n - min 5000 n) (by omega) (slept + min 5000 n)
        omega

theorem sliceLoop_stopped (c : Nat → Bool) (t0 : Nat)
    (h : ∀ t, t0 ≤ t → c t = true) :
    ∀ remaining slept, slept < t0 + 5000 → sliceLoop c slept remaining < t0 + 5000 := by
  intro remaining
  induction remaining using Nat.strong_induction_on with
  | _ n ih =>
    intro slept hs
    rw [sliceLoop]
    split
    · exact hs
    · split
      · exact hs
      · rename_i h0 hcheck
        have hlt : slept < t0 := by
          by_contra hcon
          exact hcheck (h slept (by omega))
        exact ih (n - min 5000 n) (by omega) (slept + min 5000 n) (by omega)

theorem randInt_bounds (r : ℚ) (lo hi : ℤ) (h0 : 0 ≤ r) (h1 : r < 1)
    (hlh : lo ≤ hi) : lo ≤ randInt r lo hi ∧ randInt r lo hi ≤ hi := by
  unfold randInt
  have hcast : (lo : ℚ) ≤ (hi : ℚ) := by exact_mod_cast hlh
  have hk : (0 : ℚ) < ((hi : ℚ) - lo + 1) := by linarith
  constructor
  · have hnn : (0 : ℚ) ≤ r * ((hi : ℚ) - lo + 1) := mul_nonneg h0 (le_of_lt hk)
    have := Int.floor_nonneg.mpr hnn
    omega
  · have hlt : r * ((hi : ℚ) - lo + 1) < ((hi : ℚ) - lo + 1) := by nlinarith
    have hfl : ⌊r * ((hi : ℚ) - lo + 1)⌋ < hi - lo + 1 := by
      rw [Int.floor_lt]
      push_cast
      exact hlt
    omega

/-! ## Claim theorems -/

/-- C1: every HTTP response with status 429 is classified by requestJson
as RateLimited (the thrown RATE_LIMIT error, with the parsed retry-after
hint or the 8000 ms fallback), for every body text, every parse outcome
and every header value — the 429 check precedes body parsing, so no 429
response is ever classified as AuthInvalid, generic failure or Ok. -/
theorem requestJson_429_rateLimited (r : HttpResponse) (now : ℤ)
    (h : r.status = 429) :
    requestJson r now
      = ReqResult.rateLimited
          ((parseRetryAfterMs r.retryAfter now).getD RATE_LIMIT_FALLBACK_WAIT_MS)
          r.retryAfter := by
  unfold requestJson
  rw [if_pos h]

/-- Witness for C1: a concrete 429 response with an unparseable body and
no retry-after header is classified RateLimited with the 8000 ms
fallback. -/
theorem requestJson_429_rateLimited_witness :
    requestJson ⟨429, RetryAfterValue.absent, "oops", ParseResult.fail⟩ 0
      = ReqResult.rateLimited 8000 RetryAfterValue.absent := by
  have h := requestJson_429_rateLimited
    ⟨429, RetryAfterValue.absent, "oops", ParseResult.fail⟩ 0 rfl
  simpa [parseRetryAfterMs, RATE_LIMIT_FALLBACK_WAIT_MS] using h

/-- C2: every response with status 401 or 403 (and hence not 429) is
classified by requestJson as AuthInvalid (the thrown AUTH error), both
when the body fails to parse and when it parses, for every body
content. -/
theorem requestJson_401_403_auth (r : HttpResponse) (now : ℤ)
    (h : r.status = 401 ∨ r.status = 403) :
    requestJson r now = ReqResult.authErr r.status := by
  have h429 : ¬ r.status = 429 := by rcases h with h | h <;> omega
  have hlook : ∀ (j : Option JsonPayload) (t : String),
      looksLikeAuthProblem r.status j t = true := by
    intro j t
    unfold looksLikeAuthProblem
    rcases h with h | h <;> rw [h] <;> rfl
  have hok : resOk r.status = false := by
    rcases h with h | h <;> rw [h] <;> rfl
  unfold requestJson
  rw [if_neg h429]
  by_cases ht : r.text = ""
  · simp [ht, hok, hlook]
  · cases hp : r.parse with
    | fail => simp [ht, hp, hlook]
    | val j => simp [ht, hp, hok, hlook]

/-- Witness for C2: a concrete 403 response with a body that parses
fine and mentions nothing auth-like is still classified AuthInvalid. -/
theorem requestJson_401_403_auth_witness :
    requestJson ⟨403, RetryAfterValue.absent, "x", ParseResult.val ⟨some "nope", none⟩⟩ 0
      = ReqResult.authErr 403 :=
  requestJson_401_403_auth
    ⟨403, RetryAfterValue.absent, "x", ParseResult.val ⟨some "nope", none⟩⟩ 0 (Or.inr rfl)

/-- C8: parseRetryAfterMs maps a numeric header value q to
max(1000, floor(q * 1000)) ms, an HTTP-date value t to
max(1000, t - now) ms, returns none exactly for absent, empty or
unparseable values, and every non-none result is at least 1000 ms. -/
theorem parseRetryAfterMs_spec :
    (∀ (q : ℚ) (now : ℤ),
        parseRetryAfterMs (RetryAfterValue.numStr q) now = some (max 1000 ⌊q * 1000⌋))
    ∧ (∀ (t now : ℤ),
        parseRetryAfterMs (RetryAfterValue.dateStr t) now = some (max 1000 (t - now)))
    ∧ (∀ (v : RetryAfterValue) (now : ℤ),
        parseRetryAfterMs v now = none
          ↔ v = RetryAfterValue.absent ∨ v = RetryAfterValue.emptyStr
            ∨ v = RetryAfterValue.unparsable)
    ∧ (∀ (v : RetryAfterValue) (now m : ℤ),
        parseRetryAfterMs v now = some m → 1000 ≤ m) := by
  refine ⟨fun q now => rfl, fun t now => rfl, ?_, ?_⟩
  · intro v now
    cases v <;> simp [parseRetryAfterMs]
  · intro v now m hm
    cases v <;> simp [parseRetryAfterMs] at hm <;> omega

/-- Witness for C8: a retry-after header parsed as the date 5000 ms
after epoch, at now = 0, yields a hint of at least 1000 ms. -/
theorem parseRetryAfterMs_spec_witness : (1000 : ℤ) ≤ 5000 :=
  parseRetryAfterMs_spec.2.2.2 (RetryAfterValue.dateStr 5000) 0 5000
    (by norm_num [parseRetryAfterMs])

/-- C4: randInt picks a duration in [minMs, maxMs]; with no cancellation
state the full picked duration is slept; with a state the flag is
checked before every slice, so the total slept never exceeds the picked
duration and, once the flag is set from time t0 on, the function
returns less than one 5000 ms slice past t0. -/
theorem sleepRandom_spec :
    (∀ (r : ℚ) (lo hi : ℤ), 0 ≤ r → r < 1 → lo ≤ hi →
        lo ≤ randInt r lo hi ∧ randInt r lo hi ≤ hi)
    ∧ (∀ ms, sleepRandom none ms = ms)
    ∧ (∀ (check : Nat → Bool) (ms : Nat), sleepRandom (some check) ms ≤ ms)
    ∧ (∀ (check : Nat → Bool) (ms t0 : Nat),
        (∀ t, t0 ≤ t → check t = true) →
        sleepRandom (some check) ms < t0 + 5000) := by
  refine ⟨fun r lo hi h0 h1 h2 => randInt_bounds r lo hi h0 h1 h2, ?_, ?_, ?_⟩
  · intro ms
    simpa [sleepRandom] using sliceLoop_noStop ms 0
  · intro check ms
    by_cases h0 : check 0 = true
    · simp [sleepRandom, h0]
    · simpa [sleepRandom, h0] using sliceLoop_le check ms 0
  · intro check ms t0 h
    by_cases h0 : check 0 = true
    · simp [sleepRandom, h0]
    · simpa [sleepRandom, h0] using sliceLoop_stopped check t0 h ms 0 (by omega)

/-- Witness for C4: with a 20000 ms picked duration and the flag set
from 7000 ms on, the sleep returns before 12000 ms, not after the full
20000 ms. -/
theorem sleepRandom_spec_witness :
    sleepRandom (some (fun t => decide (7000 ≤ t))) 20000 < 7000 + 5000 :=
  sleepRandom_spec.2.2.2 (fun t => decide (7000 ≤ t)) 20000 7000
    (fun _t ht => decide_eq_true ht)

/-- C3: in the retry-wrapped remote operations (task completion and
token creation), an AUTH outcome triggers a credential refresh and
leaves the attempt budget and the waited time unchanged; a RATE_LIMIT
outcome consumes exactly one attempt and waits the hinted duration plus
the jitter drawn for that call; consequently, with every call
rate-limited at hint 2000 ms and maxAttempts = 3, exactly 3 calls are
made, the loop exhausts its budget without finishing, and at least
3 x 2000 ms are waited (given that each jitter draw lies in
[500, 1500], as randInt(500, 1500) guarantees). -/
theorem retryPolicy_spec :
    (∀ (script : Nat → OpOutcome) (jitter : Nat → ℤ) (s : RetryState),
        script s.calls = OpOutcome.authE →
          (retryStep script jitter s).attempt = s.attempt
          ∧ (retryStep script jitter s).refreshes = s.refreshes + 1
          ∧ (retryStep script jitter s).waitedMs = s.waitedMs)
    ∧ (∀ (script : Nat → OpOutcome) (jitter : Nat → ℤ) (s : RetryState) (w : ℤ),
        script s.calls = OpOutcome.rateE w →
          (retryStep script jitter s).attempt = s.attempt + 1
          ∧ (retryStep script jitter s).waitedMs = s.waitedMs + w + jitter s.calls)
    ∧ (∀ jitter : Nat → ℤ, (∀ k, 500 ≤ jitter k ∧ jitter k ≤ 1500) →
        (runRetry (fun _ => OpOutcome.rateE 2000) jitter RATE_LIMIT_MAX_RETRY
            RATE_LIMIT_MAX_RETRY retryStart).calls = 3
        ∧ (runRetry (fun _ => OpOutcome.rateE 2000) jitter RATE_LIMIT_MAX_RETRY
            RATE_LIMIT_MAX_RETRY retryStart).attempt = 3
        ∧ (runRetry (fun _ => OpOutcome.rateE 2000) jitter RATE_LIMIT_MAX_RETRY
            RATE_LIMIT_MAX_RETRY retryStart).finished = false
        ∧ 3 * 2000 ≤ (runRetry (fun _ => OpOutcome.rateE 2000) jitter
            RATE_LIMIT_MAX_RETRY RATE_LIMIT_MAX_RETRY retryStart).waitedMs) := by
  refine ⟨?_, ?_, ?_⟩
  · intro script jitter s h
    simp [retryStep, h]
  · intro script jitter s w h
    simp [retryStep, h]
  · intro jitter hj
    have h0 := (hj 0).1
    have h1 := (hj 1).1
    have h2 := (hj 2).1
    simp only [RATE_LIMIT_MAX_RETRY, retryStart, runRetry, retryStep]
    norm_num
    linarith

/-- Witness for C3: with the constant jitter 1000 ms, the always-429
scenario with hint 2000 ms and budget 3 waits at least 6000 ms. -/
theorem retryPolicy_spec_witness :
    3 * 2000 ≤ (runRetry (fun _ => OpOutcome.rateE 2000) (fun _ => 1000)
      RATE_LIMIT_MAX_RETRY RATE_LIMIT_MAX_RETRY retryStart).waitedMs :=
  (retryPolicy_spec.2.2 (fun _ => 1000) (fun _ => by norm_num)).2.2.2

/-! ## More containsSub helpers (for the log-line claims) -/

theorem containsSub_append_right (n : List Char) :
    ∀ (l r : List Char), containsSub n l = true → containsSub n (l ++ r) = true := by
  intro l
  induction l with
  | nil =>
    intro r h
    have hn : n = [] := by
      cases n with
      | nil => rfl
      | cons c t => exact absurd h (by simp [containsSub, List.isEmpty])
    subst hn
    exact containsSub_nil_needle r
  | cons c rest ih =>
    intro r h
    have hstep : containsSub n (c :: rest)
        = (n.isPrefixOf (c :: rest) || containsSub n rest) := by
      cases n <;> rfl
    rw [hstep] at h
    have hstep2 : containsSub n ((c :: rest) ++ r)
        = (n.isPrefixOf (c :: (rest ++ r)) || containsSub n (rest ++ r)) := by
      cases n <;> rfl
    rw [List.cons_append] at hstep2 ⊢
    rw [hstep2]
    rcases (Bool.or_eq_true _ _).mp h with hp | hc
    · have hpre : n <+: (c :: rest) := List.isPrefixOf_iff_prefix.mp hp
      have hpre2 : n <+: ((c :: rest) ++ r) := hpre.trans ⟨r, rfl⟩
      rw [List.cons_append] at hpre2
      rw [List.isPrefixOf_iff_prefix.mpr hpre2, Bool.true_or]
    · rw [ih r hc, Bool.or_true]

theorem containsSub_str_append (n : List Char) (s t : String)
    (h : containsSub n s.data = true) : containsSub n (s ++ t).data = true := by
  rw [String.data_append]
  exact containsSub_append_right n s.data t.data h

theorem containsSub_quoted_self (label : String) :
    containsSub label.data (quoted label).data = true := by
  unfold quoted
  have hd : (("\"" ++ label ++ "\"") : String).data
      = '\"' :: (label.data ++ ['\"']) := by
    simp [String.data_append]
  rw [hd]
  exact containsSub_cons _ _ _ (containsSub_self_append _ _)

/-! ## Claims C5, C6, C7, C10 -/

/-- C5 counterexample: when cancellation has been requested
(stopRequested = true), the catch handler of the token-creation retry
loop returns before logging anything — a thrown generic error from the
remote call is discarded with no log line at all, contradicting the
claim that no error raised by a remote call is ever discarded without
logging. -/
theorem tokenCreateCatch_silent_counterexample :
    tokenCreateCatchLogs "acc1" true 1 (ThrownErr.failT "boom") = [] := rfl

/-- C5 amended: every non-success outcome of a remote operation produces
at least a warning-level log line naming the account, EXCEPT (a) the
token-creation handler, which returns silently when cancellation has
been requested, and (b) a rate-limited lootbox open, which sleeps and
retries without logging (and whose other error logs name the action but
not the account label).  Formally: with stopRequested = false the
token-creation handler always emits a warn line containing the label;
the lootbox open handler emits nothing on RATE_LIMIT and an err line on
other failures. -/
theorem catchHandlers_logging_spec :
    (∀ (label : String) (attempt : Nat) (e : ThrownErr),
        ∃ line ∈ tokenCreateCatchLogs label false attempt e,
          line.level = LogLevel.warn
          ∧ containsSub label.data line.msg.data = true)
    ∧ (∀ (label : String) (w : ℤ) (raw : Option String),
        lootboxOpenCatchLogs label (ThrownErr.rateT w raw) = [])
    ∧ (∀ (label m : String),
        ∃ line ∈ lootboxOpenCatchLogs label (ThrownErr.failT m),
          line.level = LogLevel.err) := by
  refine ⟨?_, fun label w raw => rfl, ?_⟩
  · intro label attempt e
    cases e with
    | authT =>
      exact ⟨_, List.mem_singleton_self _, rfl, containsSub_quoted label _⟩
    | rateT w raw =>
      refine ⟨_, List.mem_singleton_self _, rfl, ?_⟩
      iterate 9 apply containsSub_str_append
      exact containsSub_quoted_self label
    | failT m =>
      refine ⟨_, List.mem_singleton_self _, rfl, ?_⟩
      iterate 2 apply containsSub_str_append
      exact containsSub_quoted_self label
  · intro label m
    exact ⟨_, List.mem_singleton_self _, rfl⟩

/-- C6 counterexample: against a getMe that is rate-limited (hint
2000 ms) on every call, the identity-refresh loop after a task makes
exactly one call, waits 0 ms and gives up — it does not wait per the
hint and does not retry within any budget, contradicting the claim that
the refresh is retry-wrapped under the Retry Policy. -/
theorem meLoop_rateLimited_counterexample :
    (runMeLoop (fun _ => MeOutcome.rateM 2000) 5 meLoopStart).calls = 1
    ∧ (runMeLoop (fun _ => MeOutcome.rateM 2000) 5 meLoopStart).waitedMs = 0
    ∧ (runMeLoop (fun _ => MeOutcome.rateM 2000) 5 meLoopStart).finished = true :=
  ⟨rfl, rfl, rfl⟩

/-- C6 amended: the identity refresh after each task completion retries
only on AuthInvalid (after a credential refresh); a RateLimited outcome
is treated like any other failure — the loop finishes after that one
call with no wait and no retry; and the identity-refresh loop never
aborts the task iteration, so every pending task is processed
regardless of the refresh outcomes. -/
theorem meLoop_spec :
    (∀ (script : Nat → MeOutcome) (s : MeLoopState) (w : ℤ),
        script s.calls = MeOutcome.rateM w →
          (meStep script s).finished = true
          ∧ (meStep script s).waitedMs = s.waitedMs
          ∧ (meStep script s).calls = s.calls + 1
          ∧ (meStep script s).refreshes = s.refreshes)
    ∧ (∀ (script : Nat → MeOutcome) (s : MeLoopState),
        script s.calls = MeOutcome.authM →
          (meStep script s).finished = s.finished
          ∧ (meStep script s).refreshes = s.refreshes + 1
          ∧ (meStep script s).waitedMs = s.waitedMs)
    ∧ (∀ (completeScript : Nat → Nat → OpOutcome) (meScript : Nat → Nat → MeOutcome)
        (jitter : Nat → ℤ) (fuel : Nat) (tasks : List Nat),
        (processPending completeScript meScript jitter fuel tasks).length
          = tasks.length) := by
  refine ⟨?_, ?_, ?_⟩
  · intro script s w h
    simp [meStep, h]
  · intro script s h
    simp [meStep, h]
  · intro c m j fuel tasks
    induction tasks with
    | nil => rfl
    | cons t rest ih => simp [processPending, ih]

/-- Witness for C6 (amended): a rate-limited first call leaves the
waited time at 0. -/
theorem meLoop_spec_witness :
    (meStep (fun _ => MeOutcome.rateM 2000) meLoopStart).waitedMs = 0 :=
  ((meLoop_spec.1 (fun _ => MeOutcome.rateM 2000) meLoopStart 2000 rfl).2.1).trans rfl

/-! ## Lootbox loop lemmas -/

theorem countReturned_succ (openS : Nat → OpenOutcome) (n : Nat) :
    countReturned openS (n + 1)
      = countReturned openS n + (if (openS n).isRet then 1 else 0) := by
  unfold countReturned
  rw [List.range_succ, List.filter_append, List.length_append]
  cases h : (openS n).isRet <;> simp [h]

theorem lootboxStep_opened (price : ℤ) (isRepeat : Bool)
    (balS : Nat → BalOutcome) (openS : Nat → OpenOutcome) (s : LootboxState)
    (h : s.opened = countReturned openS s.openCalls) :
    (lootboxStep price isRepeat balS openS s).opened
      = countReturned openS (lootboxStep price isRepeat balS openS s).openCalls := by
  unfold lootboxStep
  cases hb : balS s.balCalls with
  | authB => simpa using h
  | failB => simpa using h
  | okB bal =>
    by_cases hlt : bal < price
    · simpa [hlt] using h
    · simp only [hlt, if_false]
      cases ho : openS s.openCalls with
      | retO succ p =>
        cases isRepeat <;>
          simp [countReturned_succ, ho, OpenOutcome.isRet, h]
      | authO => simp [countReturned_succ, ho, OpenOutcome.isRet, h]
      | rateO w => simp [countReturned_succ, ho, OpenOutcome.isRet, h]
      | failO => simp [countReturned_succ, ho, OpenOutcome.isRet, h]

theorem runLootbox_opened_invariant (price : ℤ) (isRepeat : Bool)
    (balS : Nat → BalOutcome) (openS : Nat → OpenOutcome) :
    ∀ (fuel : Nat) (s : LootboxState),
      s.opened = countReturned openS s.openCalls →
      (runLootbox price isRepeat balS openS fuel s).opened
        = countReturned openS (runLootbox price isRepeat balS openS fuel s).openCalls := by
  intro fuel
  induction fuel with
  | zero => intro s h; exact h
  | succ m ih =>
    intro s h
    rw [runLootbox]
    split
    · exact h
    · exact ih _ (lootboxStep_opened price isRepeat balS openS s h)

theorem lootbox_429_unbounded_aux :
    ∀ (n k : Nat),
      runLootbox 25 true (fun _ => BalOutcome.okB 1000) (fun _ => OpenOutcome.rateO 8000)
        n ⟨k, k, 0, 0, false⟩
      = ⟨k + n, k + n, 0, 0, false⟩ := by
  intro n
  induction n with
  | zero => intro k; rfl
  | succ m ih =>
    intro k
    have hstep : lootboxStep 25 true (fun _ => BalOutcome.okB 1000)
        (fun _ => OpenOutcome.rateO 8000) ⟨k, k, 0, 0, false⟩
        = ⟨k + 1, k + 1, 0, 0, false⟩ := by
      simp [lootboxStep]
    rw [runLootbox]
    simp only [if_false]
    rw [hstep, ih (k + 1)]
    have harith : k + 1 + m = k + (m + 1) := by omega
    rw [harith]
    simp

/-! ## Claims C7 and C10 -/

/-- C7 counterexample: against a server that answers every open with
429 (and a balance of 1000, well above the Bronze price 25), ten loop
iterations make ten open attempts and the runner has not given up —
more than the programs own retry budget of 3, so the open retry is not
bounded by any fixed attempt count. -/
theorem lootboxOpen_retry_counterexample :
    (runLootbox 25 true (fun _ => BalOutcome.okB 1000) (fun _ => OpenOutcome.rateO 8000)
        10 lootboxStart).openCalls = 10
    ∧ (runLootbox 25 true (fun _ => BalOutcome.okB 1000) (fun _ => OpenOutcome.rateO 8000)
        10 lootboxStart).finished = false :=
  ⟨rfl, rfl⟩

/-- C7 amended: retries of the lootbox open on RateLimited are
UNBOUNDED: the handler sleeps and re-enters the whole loop (balance
check, then open) with no attempt counter, so with a server returning
429 on every open and a sufficient balance, n loop iterations make
exactly n open attempts and the loop never terminates on its own. -/
theorem lootbox_429_unbounded (n : Nat) :
    (runLootbox 25 true (fun _ => BalOutcome.okB 1000) (fun _ => OpenOutcome.rateO 8000)
        n lootboxStart).openCalls = n
    ∧ (runLootbox 25 true (fun _ => BalOutcome.okB 1000) (fun _ => OpenOutcome.rateO 8000)
        n lootboxStart).finished = false := by
  have h := lootbox_429_unbounded_aux n 0
  have hs : lootboxStart = (⟨0, 0, 0, 0, false⟩ : LootboxState) := rfl
  rw [hs, h]
  simp

/-- C10: in the lootbox runner, the opened counter is incremented after
every open call that returns without throwing — whether or not the
response was successful or carried a prize — so the final opened count
equals the number of non-throwing open calls, for every script of
server behavior, every price, mode and fuel. -/
theorem lootbox_opened_counts_returns (price : ℤ) (isRepeat : Bool)
    (balS : Nat → BalOutcome) (openS : Nat → OpenOutcome) (fuel : Nat) :
    (runLootbox price isRepeat balS openS fuel lootboxStart).opened
      = countReturned openS
          (runLootbox price isRepeat balS openS fuel lootboxStart).openCalls :=
  runLootbox_opened_invariant price isRepeat balS openS fuel lootboxStart rfl

/-! ## Config normalization lemmas and claim C9 -/

theorem normAccountsGo_mem :
    ∀ (l : List RawEntry) (idx : Nat) (a : Account), a ∈ normAccountsGo idx l →
      jsTrim a.label = a.label ∧ a.label ≠ "" ∧ jsTrim a.cookie = a.cookie := by
  intro l
  induction l with
  | nil =>
    intro idx a h
    exact absurd h (by simp [normAccountsGo])
  | cons e rest ih =>
    intro idx a h
    have hstep : normAccountsGo idx (e :: rest)
        = normEntry idx e :: normAccountsGo (idx + 1) rest := rfl
    rw [hstep] at h
    rcases List.mem_cons.mp h with h | h
    · subst h
      cases e with
      | notObj =>
        exact ⟨jsTrim_defaultLabel _, defaultLabel_ne_empty _, rfl⟩
      | obj lf cf =>
        refine ⟨?_, ?_, ?_⟩
        · show jsTrim (normEntry idx (RawEntry.obj lf cf)).label = _
          cases lf with
          | strVal s =>
            by_cases hs : jsTrim s ≠ ""
            · simp [normEntry, hs, jsTrim_idem]
            · simp [normEntry, hs, jsTrim_defaultLabel]
          | missing => exact jsTrim_defaultLabel _
          | notStr => exact jsTrim_defaultLabel _
        · cases lf with
          | strVal s =>
            by_cases hs : jsTrim s ≠ ""
            · simp [normEntry, hs]
            · simp [normEntry, hs, defaultLabel_ne_empty]
          | missing => exact defaultLabel_ne_empty _
          | notStr => exact defaultLabel_ne_empty _
        · cases cf with
          | strVal s => exact jsTrim_idem s
          | missing => rfl
          | notStr => rfl
    · exact ih (idx + 1) a h

theorem normAccountsGo_label_default :
    ∀ (l : List RawEntry) (idx i : Nat) (a : Account),
      (normAccountsGo idx l)[i]? = some a →
      a.label = defaultLabel (idx + i + 1)
        ∨ ∃ s, a.label = jsTrim s ∧ jsTrim s ≠ "" := by
  intro l
  induction l with
  | nil =>
    intro idx i a h
    exact absurd h (by simp [normAccountsGo])
  | cons e rest ih =>
    intro idx i a h
    have hstep : normAccountsGo idx (e :: rest)
        = normEntry idx e :: normAccountsGo (idx + 1) rest := rfl
    rw [hstep] at h
    cases i with
    | zero =>
      rw [List.getElem?_cons_zero] at h
      have ha : a = normEntry idx e := by
        injection h with h
        exact h.symm
      subst ha
      cases e with
      | notObj => exact Or.inl (by simp [normEntry])
      | obj lf cf =>
        cases lf with
        | strVal s =>
          by_cases hs : jsTrim s ≠ ""
          · exact Or.inr ⟨s, by simp [normEntry, hs], hs⟩
          · exact Or.inl (by simp [normEntry, hs])
        | missing => exact Or.inl (by simp [normEntry])
        | notStr => exact Or.inl (by simp [normEntry])
    | succ j =>
      rw [List.getElem?_cons_succ] at h
      have := ih (idx + 1) j a h
      rcases this with hdef | hin
      · exact Or.inl (by rw [hdef]; congr 1; omega)
      · exact Or.inr hin

/-- C9: normalizeConfig migrates a legacy config — an object whose
top-level cookie is a non-blank string and whose accounts array is
absent or empty — into exactly one account, labelled acc1, holding the
trimmed legacy cookie, with the top-level cookie field removed; and for
every input, every account in the normalized output has a trimmed
non-blank label (the default is accN by one-based position, built into
normEntry) and a trimmed (possibly empty) cookie. -/
theorem normalizeConfig_spec :
    (∀ (s : String) (accsOpt : Option (List RawEntry)),
        (accsOpt = none ∨ accsOpt = some []) → jsTrim s ≠ "" →
        normalizeConfig ⟨true, JsField.strVal s, accsOpt⟩
          = ⟨[⟨"acc1", jsTrim s⟩], JsField.missing⟩)
    ∧ (∀ (cfg : RawConfig) (a : Account), a ∈ (normalizeConfig cfg).accounts →
        jsTrim a.label = a.label ∧ a.label ≠ "" ∧ jsTrim a.cookie = a.cookie)
    ∧ (∀ (cfg : RawConfig) (i : Nat) (a : Account),
        (normalizeConfig cfg).accounts[i]? = some a →
        a.label = defaultLabel (i + 1)
          ∨ ∃ s, a.label = jsTrim s ∧ jsTrim s ≠ "") := by
  refine ⟨?_, ?_, ?_⟩
  · intro s accsOpt hacc hs
    have hacc1 : jsTrim ("acc1" : String) = "acc1" := by decide
    rcases hacc with h | h <;> subst h <;>
      simp [normalizeConfig, normAccountsGo, normEntry, RawEntry.isObjEntry,
        hs, hacc1, jsTrim_idem]
  · intro cfg a ha
    simp only [normalizeConfig] at ha
    exact normAccountsGo_mem _ 0 a ha
  · intro cfg i a ha
    simp only [normalizeConfig] at ha
    have := normAccountsGo_label_default _ 0 i a ha
    rwa [Nat.zero_add] at this

/-- Witness for C9: the concrete legacy config with cookie " tok "
(blank-padded) and no accounts array migrates to the single account
acc1 with the trimmed cookie, and that account satisfies the
trimmed-label and trimmed-cookie invariants. -/
theorem normalizeConfig_spec_witness :
    normalizeConfig ⟨true, JsField.strVal " tok ", none⟩
      = ⟨[⟨"acc1", "tok"⟩], JsField.missing⟩ := by
  have h := normalizeConfig_spec.1 " tok " none (Or.inl rfl) (by decide)
  have ht : jsTrim " tok " = "tok" := by decide
  rw [ht] at h
  exact h

end XageBot
